import Mathlib

/-!
Verification of `parse_stitch_VCF.py`: a shallow embedding of the script's
data model and control flow, followed by theorems about its behaviour.

Modelling conventions:
* Python dicts keyed by strings become association lists `List (String × α)`;
  assignment `d[k] = v` is `dictInsert` (overwrite-in-place, append if new),
  lookup `d[k]` is `dictLookup` (raises `KeyError` when absent, modelled as
  `Option.none` / a `Failure.pyError`).
* `sys.exit(message)` (process exit status 1) is `Failure.exitMsg`;
  `sys.exit(0)` (process exit status 0) is `Failure.exitZero`; an uncaught
  Python exception (process exit status 1) is `Failure.pyError`.
* Text files are given pre-tokenised: the founder file is a list of lines,
  each already `strip().split()` into tokens; the VCF reader is given as its
  sample list plus its finite record stream.
-/

namespace ParseStitchVCF

/-- Terminal failure of a run: `exitZero` models `sys.exit(0)` (used by
`openIOFile` on `IOError`; process exit status 0), `exitMsg` models
`sys.exit(message)` with a non-empty string (process exit status 1), and
`pyError` models an uncaught Python exception such as `KeyError` or
`IndexError` (process exit status 1). -/
inductive Failure where
  | exitZero : Failure
  | exitMsg : String → Failure
  | pyError : String → Failure
deriving DecidableEq, Repr

/-- Process exit status produced by each kind of failure: `sys.exit(0)` exits
with status 0; `sys.exit(message)` prints the message and exits with status 1;
an uncaught exception makes the interpreter exit with status 1. -/
def Failure.exitCode : Failure → Nat
  | Failure.exitZero => 0
  | Failure.exitMsg _ => 1
  | Failure.pyError _ => 1

/-- Python dict lookup `d[k]` on an association list: first binding wins
(association lists built by `dictInsert` never hold duplicate keys). -/
def dictLookup {α : Type} : List (String × α) → String → Option α
  | [], _ => none
  | p :: rest, k => if p.1 = k then some p.2 else dictLookup rest k

/-- Python dict assignment `d[k] = v`: overwrites the value at an existing
key in place, otherwise appends the new binding at the end. -/
def dictInsert {α : Type} : List (String × α) → String → α → List (String × α)
  | [], k, v => [(k, v)]
  | p :: rest, k, v =>
    if p.1 = k then (k, v) :: dictInsert rest k v else p :: dictInsert rest k v

/-- Lookup in `OrderedDict(zip(ks, vs))`: `zip` truncates to the shorter list
and a later duplicate key overwrites an earlier one, so the LAST matching
binding of the zip wins. -/
def zipLookup (ks vs : List String) (k : String) : Option String :=
  go (List.zip ks vs)
  where go : List (String × String) → Option String
    | [] => none
    | p :: rest =>
      match go rest with
      | some v => some v
      | none => if p.1 = k then some p.2 else none

/-- Source `openIOFile` (lines 13-23): opening a file that is not accessible
logs a critical message and calls `sys.exit(0)`. The filesystem is abstracted
to `Option α`: `none` means the `open` call raises `IOError`. -/
def openIOFile {α : Type} (file : Option α) : Except Failure α :=
  match file with
  | some content => Except.ok content
  | none => Except.error Failure.exitZero

/-- Source `verifyParentalGenosFileStructure` (lines 25-31):
`headerLine[:4] == ['CHROM', 'POS', 'REF', 'ALT']`. -/
def verifyParentalGenosFileStructure (headerLine : List String) : Bool :=
  headerLine.take 4 == [("CHROM"), ("POS"), ("REF"), ("ALT")]

/-- The founder table: position string ↦ the row's columns from `REF` onward,
keyed by header column name (source line 42). -/
abbrev PGDict : Type := List (String × List (String × String))

/-- The dict comprehension `{k: tempDict[k] for k in keys}` over
`tempDict = OrderedDict(zip(header, elements))`: `none` models the `KeyError`
raised when some key of `keys` is absent from the zip. -/
def buildRowFields (header elements : List String) : List String → Option (List (String × String))
  | [] => some []
  | k :: ks =>
    match zipLookup header elements k with
    | none => none
    | some v =>
      match buildRowFields header elements ks with
      | none => none
      | some rest => some ((k, v) :: rest)

/-- The record stored for one founder row (source line 42):
`{k: tempDict[k] for k in header[2:]}`. -/
def buildRowRecord (header elements : List String) : Option (List (String × String)) :=
  buildRowFields header elements (header.drop 2)

/-- One iteration of the founder-row loop (source lines 35-42): `elements[0]`
raises `IndexError` on an empty line; a chromosome-matching row is stored
under `tempDict['POS']` (`KeyError` when `POS` is not a zipped column);
other rows are ignored. -/
def processFounderRow (chrom : String) (header : List String)
    (d : PGDict) (elements : List String) : Except Failure PGDict :=
  match elements with
  | [] => Except.error (Failure.pyError ("IndexError: empty founder line"))
  | c0 :: _ =>
    if c0 = chrom then
      match buildRowRecord header elements, zipLookup header elements ("POS") with
      | some rcd, some pos => Except.ok (dictInsert d pos rcd)
      | _, _ => Except.error (Failure.pyError ("KeyError while storing founder row"))
    else Except.ok d

/-- The founder-row loop folded over all data lines (source lines 35-42). -/
def processFounderRows (chrom : String) (header : List String) :
    List (List String) → PGDict → Except Failure PGDict
  | [], d => Except.ok d
  | row :: rest, d =>
    match processFounderRow chrom header d row with
    | Except.error f => Except.error f
    | Except.ok d2 => processFounderRows chrom header rest d2

/-- Fatal message of the empty-founder-table assert (source lines 45-50). -/
def noEntriesMsg (chrom : String) : String :=
  "There are no entries for chromosome " ++ chrom ++ " in the parental genotypes file."

/-- Source `extractParentGenosForGivenChrom` (lines 33-52): builds the founder
table for one chromosome and exits fatally when no row matched. -/
def extractParentGenosForGivenChrom (rows : List (List String)) (chrom : String)
    (header : List String) : Except Failure PGDict :=
  match processFounderRows chrom header rows [] with
  | Except.error f => Except.error f
  | Except.ok d =>
    if 0 < d.length then Except.ok d
    else Except.error (Failure.exitMsg (noEntriesMsg chrom))

/-- Source line 133: the proper-orientation translation table. -/
def genotypeTranslationDictProper : List (String × String) :=
  [("0/0", "0"), ("0/1", "1"), ("1/1", "2"), ("./.", "NA")]

/-- Source line 134: the inverted-orientation translation table. -/
def genotypeTranslationDictInv : List (String × String) :=
  [("0/0", "2"), ("0/1", "1"), ("1/1", "0"), ("./.", "NA")]

/-- One record of the PyVCF reader: `CHROM`, integer `POS`, `REF`, the list of
alternate alleles, and `calls` giving `record.genotype(sample)['GT']` for each
sample name. -/
structure VariantRecord where
  CHROM : String
  POS : Nat
  REF : String
  ALT : List String
  calls : List (String × String)
deriving DecidableEq, Repr

/-- The accumulating output state: `outputGenosDict['positions']` and the
per-sample dosage lists (source lines 146-149). -/
structure OutState where
  positions : List String
  genos : List (String × List String)
deriving DecidableEq, Repr

/-- Source lines 146-149: `outputGenosDict[sample] = []` for every sample. -/
def initOutputGenos (samples : List String) : List (String × List String) :=
  samples.foldl (fun d s => dictInsert d s []) []

/-- The output state before any VCF record is processed. -/
def initState (samples : List String) : OutState :=
  { positions := [], genos := initOutputGenos samples }

/-- Evaluation of `parentalGenosDict[str(record.POS)][parents[i]]` given the
already-found row record: `parents[i]` raises `IndexError` when the header had
too few columns, and the column lookup raises `KeyError` when absent. -/
def parentGeno (info : List (String × String)) (parents : List String) (i : Nat) :
    Except Failure String :=
  match parents[i]? with
  | none => Except.error (Failure.pyError ("IndexError: parents"))
  | some pname =>
    match dictLookup info pname with
    | none => Except.error (Failure.pyError ("KeyError: parent genotype column"))
    | some g => Except.ok g

/-- The `elif` arm of the table selection (source lines 188-194), entered with
the already-computed value `g0` of `parentalGenosDict[...][parents[0]]`; the
short-circuit `and` only evaluates `parents[1]` when `g0 == '1/1'`. -/
def selectTranslationElif (g0 : String) (info : List (String × String))
    (parents : List String) : Except Failure (Option (List (String × String))) :=
  if g0 = "1/1" then
    match parentGeno info parents 1 with
    | Except.error f => Except.error f
    | Except.ok g1 =>
      if g1 = "0/0" then Except.ok (some genotypeTranslationDictInv)
      else Except.ok none
  else Except.ok none

/-- Source lines 186-194: choose the translation table from the two founder
genotypes; `some table` selects a rule, `none` is the warn-and-skip branch. -/
def selectTranslation (info : List (String × String)) (parents : List String) :
    Except Failure (Option (List (String × String))) :=
  match parentGeno info parents 0 with
  | Except.error f => Except.error f
  | Except.ok g0 =>
    if g0 = "0/0" then
      match parentGeno info parents 1 with
      | Except.error f => Except.error f
      | Except.ok g1 =>
        if g1 = "1/1" then Except.ok (some genotypeTranslationDictProper)
        else selectTranslationElif g0 info parents
    else selectTranslationElif g0 info parents

/-- Append one dosage to every binding of `sample` (a `dictInsert`-built dict
has exactly one). -/
def appendGenoAll (genos : List (String × List String)) (sample tr : String) :
    List (String × List String) :=
  genos.map (fun p => if p.1 = sample then (p.1, p.2 ++ [tr]) else p)

/-- Source line 201, `outputGenosDict[sample].append(trGeno)`: `none` models
the `KeyError` when `sample` is not a key. -/
def appendGeno (genos : List (String × List String)) (sample tr : String) :
    Option (List (String × List String)) :=
  if (dictLookup genos sample).isSome then some (appendGenoAll genos sample tr)
  else none

/-- Source lines 199-201: recode every sample's genotype at this record with
the selected table and append the dosages. Any genotype string absent from the
table raises `KeyError` (the run crashes; no value is invented). -/
def recodeSamples (tbl : List (String × String)) (r : VariantRecord) :
    List String → List (String × List String) → Except Failure (List (String × List String))
  | [], genos => Except.ok genos
  | sample :: rest, genos =>
    match dictLookup r.calls sample with
    | none => Except.error (Failure.pyError ("KeyError: sample not in VCF record"))
    | some gt =>
      match dictLookup tbl gt with
      | none => Except.error (Failure.pyError ("KeyError: genotype not in translation dict"))
      | some tr =>
        match appendGeno genos sample tr with
        | none => Except.error (Failure.pyError ("KeyError: sample not in output dict"))
        | some genos2 => recodeSamples tbl r rest genos2

/-- Source lines 196-201: accept the record — append `str(record.POS)` to the
positions list and recode every sample. -/
def recodeRecord (tbl : List (String × String)) (samples : List String)
    (r : VariantRecord) (s : OutState) : Except Failure OutState :=
  match recodeSamples tbl r samples s.genos with
  | Except.error f => Except.error f
  | Except.ok g => Except.ok { positions := s.positions ++ [toString r.POS], genos := g }

/-- Fatal message for a REF mismatch (source line 173). -/
def refMismatchMsg (pos : Nat) : String :=
  "REF alleles for position " ++ toString pos ++ " do not match in founding SNPs and STITCH VCF"

/-- Fatal message for an ALT mismatch (source line 181). -/
def altMismatchMsg (pos : Nat) : String :=
  "ALT alleles for position " ++ toString pos ++ " do not match in founding SNPs and STITCH VCF"

/-- One iteration of the record loop (source lines 154-201): look up
`str(record.POS)` in the founder table (absent → warn and skip), check REF and
ALT agreement (mismatch → `sys.exit(message)`), select a translation table
(uninformative founder pair → warn and skip), else accept and recode. -/
def processRecord (pg : PGDict) (parents : List String) (samples : List String)
    (s : OutState) (r : VariantRecord) : Except Failure OutState :=
  match dictLookup pg (toString r.POS) with
  | none => Except.ok s
  | some info =>
    match dictLookup info ("REF") with
    | none => Except.error (Failure.pyError ("KeyError: REF column"))
    | some ref =>
      if ref = r.REF then
        match dictLookup info ("ALT") with
        | none => Except.error (Failure.pyError ("KeyError: ALT column"))
        | some alt =>
          match r.ALT[0]? with
          | none => Except.error (Failure.pyError ("IndexError: record has no ALT allele"))
          | some a0 =>
            if alt = a0 then
              match selectTranslation info parents with
              | Except.error f => Except.error f
              | Except.ok none => Except.ok s
              | Except.ok (some tbl) => recodeRecord tbl samples r s
            else Except.error (Failure.exitMsg (altMismatchMsg r.POS))
      else Except.error (Failure.exitMsg (refMismatchMsg r.POS))

/-- The record loop folded over the whole VCF stream (source lines 154-201);
a fatal outcome ends the run at once. -/
def processRecords (pg : PGDict) (parents samples : List String) :
    List VariantRecord → OutState → Except Failure OutState
  | [], s => Except.ok s
  | r :: rs, s =>
    match processRecord pg parents samples s r with
    | Except.error f => Except.error f
    | Except.ok s2 => processRecords pg parents samples rs s2

/-- Warning logged for one inconsistent sample (source line 63). -/
def integrityMessage (sample : String) (n nPos : Nat) : String :=
  "sample [" ++ sample ++ "] has [" ++ toString n ++ "] genos. Expected: [" ++ toString nPos ++ "]"

/-- The per-sample scan of `verifyOutputGenoIntegrity` (source lines 58-64):
counts the inconsistent samples and collects the warning messages logged for
them, in iteration order; a sample missing from the dict raises `KeyError`. -/
def integrityScan (genos : List (String × List String)) (nPos : Nat) :
    List String → Except Failure (Nat × List String)
  | [] => Except.ok (0, [])
  | sample :: rest =>
    match dictLookup genos sample with
    | none => Except.error (Failure.pyError ("KeyError: sample missing from output dict"))
    | some l =>
      match integrityScan genos nPos rest with
      | Except.error f => Except.error f
      | Except.ok (nBad, msgs) =>
        if l.length = nPos then Except.ok (nBad, msgs)
        else Except.ok (nBad + 1, integrityMessage sample l.length nPos :: msgs)

/-- Source `verifyOutputGenoIntegrity` (lines 54-71): returns `nBad == 0`
together with the warning messages it logged along the way. -/
def verifyOutputGenoIntegrity (st : OutState) (samples : List String) :
    Except Failure (Bool × List String) :=
  match integrityScan st.genos st.positions.length samples with
  | Except.error f => Except.error f
  | Except.ok (nBad, msgs) => Except.ok (nBad == 0, msgs)

/-- Comma-join of one output line (source lines 216 and 220). -/
def joinComma (fields : List String) : String :=
  String.intercalate (",") fields

/-- Source lines 218-220: one output line per sample, in sample order. -/
def outputSampleLines (genos : List (String × List String)) :
    List String → Except Failure (List String)
  | [] => Except.ok []
  | sample :: rest =>
    match dictLookup genos sample with
    | none => Except.error (Failure.pyError ("KeyError: sample missing at output"))
    | some l =>
      match outputSampleLines genos rest with
      | Except.error f => Except.error f
      | Except.ok lines => Except.ok (joinComma (sample :: l) :: lines)

/-- Source lines 215-220: the emitted file, header line first — `'sample'`
followed by the accepted positions, then one dosage row per sample. -/
def outputLines (st : OutState) (samples : List String) : Except Failure (List String) :=
  match outputSampleLines st.genos samples with
  | Except.error f => Except.error f
  | Except.ok rows => Except.ok (joinComma (("sample") :: st.positions) :: rows)

/-- Outcome of a whole run: either the lines written to the output file, or a
terminal failure. -/
inductive RunResult where
  | success : List String → RunResult
  | failure : Failure → RunResult
deriving DecidableEq, Repr

/-- Process exit status of a finished run: success exits 0. -/
def RunResult.exitCode : RunResult → Nat
  | RunResult.success _ => 0
  | RunResult.failure f => f.exitCode

/-- Fatal message of the failed final integrity assert (source line 209). -/
def outputFailMsg : String :=
  "the output genotype dictionary is not correct"

/-- Fatal message of the failed header assert (source lines 122-123). -/
def parentalHeaderErrMsg : String :=
  "the header of the parental genotypes file is missing. Add a header: CHROM, POS, REF, ALT, Parent1_Geno, Parent2_Geno"

/-- Source lines 206-220: after the stream is exhausted, assert the integrity
check (failure → `sys.exit(message)`), open the output file for writing
(`outWritable = false` models an inaccessible output path → `sys.exit(0)`),
and emit the matrix. -/
def finishRun (st : OutState) (samples : List String) (outWritable : Bool) : RunResult :=
  match verifyOutputGenoIntegrity st samples with
  | Except.error f => RunResult.failure f
  | Except.ok (false, _) => RunResult.failure (Failure.exitMsg outputFailMsg)
  | Except.ok (true, _) =>
    match openIOFile (if outWritable then some () else none) with
    | Except.error f => RunResult.failure f
    | Except.ok _ =>
      match outputLines st samples with
      | Except.error f => RunResult.failure f
      | Except.ok lines => RunResult.success lines

/-- The VCF reader's view of the variant file: sample names and the finite
record stream. -/
structure VCFData where
  samples : List String
  records : List VariantRecord
deriving DecidableEq, Repr

/-- Source `main` (lines 74-220), with argument parsing and logging elided:
open the founder file (`none` → `sys.exit(0)`), read and validate its header,
take the two founder names from header tokens 5-6, build the founder table,
open the VCF (`none` → `sys.exit(0)`), process every record, and finish with
the integrity check and output emission. -/
def runMain (founderFile : Option (List (List String))) (vcfFile : Option VCFData)
    (chrom : String) (outWritable : Bool) : RunResult :=
  match openIOFile founderFile with
  | Except.error f => RunResult.failure f
  | Except.ok lines =>
    let header := (lines.head?).getD []
    if verifyParentalGenosFileStructure header then
      let parents := (header.drop 4).take 2
      match extractParentGenosForGivenChrom (lines.drop 1) chrom header with
      | Except.error f => RunResult.failure f
      | Except.ok pg =>
        match openIOFile vcfFile with
        | Except.error f => RunResult.failure f
        | Except.ok v =>
          match processRecords pg parents v.samples v.records (initState v.samples) with
          | Except.error f => RunResult.failure f
          | Except.ok st => finishRun st v.samples outWritable
    else RunResult.failure (Failure.exitMsg parentalHeaderErrMsg)

/-- Length of a keyed dosage list, as an `Option` tracking key presence. -/
def lenOf (genos : List (String × List String)) (n : String) : Option Nat :=
  (dictLookup genos n).map List.length

/-- Number of dosages currently stored for a sample (`0` for a missing key). -/
def sampleGenoCount (genos : List (String × List String)) (smp : String) : Nat :=
  ((dictLookup genos smp).getD []).length

/-- The warning messages `verifyOutputGenoIntegrity` logs: one per sample
whose dosage count differs from the accepted-position count, in sample
order. -/
def integrityWarnings (genos : List (String × List String)) (nPos : Nat)
    (samples : List String) : List String :=
  (samples.filter (fun smp => !(sampleGenoCount genos smp == nPos))).map
    (fun smp => integrityMessage smp (sampleGenoCount genos smp) nPos)

/-- The fixed four-symbol output alphabet of the recoder. -/
def inAlphabet (x : String) : Prop :=
  x = "0" ∨ x = "1" ∨ x = "2" ∨ x = "NA"

/-! ## Dictionary lemmas -/

theorem dictLookup_dictInsert_self {α : Type} (d : List (String × α)) (k : String) (v : α) :
    dictLookup (dictInsert d k v) k = some v := by
  induction d with
  | nil => simp [dictInsert, dictLookup]
  | cons p rest ih =>
    by_cases h : p.1 = k
    · simp [dictInsert, h, dictLookup]
    · simp [dictInsert, h, dictLookup, ih]

theorem dictLookup_dictInsert_ne {α : Type} (d : List (String × α)) (k k' : String) (v : α)
    (h : k' ≠ k) : dictLookup (dictInsert d k v) k' = dictLookup d k' := by
  induction d with
  | nil => simp [dictInsert, dictLookup, Ne.symm h]
  | cons p rest ih =>
    by_cases hp : p.1 = k
    · simp [dictInsert, hp, dictLookup, Ne.symm h, ih]
    · simp only [dictInsert, if_neg hp, dictLookup]
      by_cases hq : p.1 = k' <;> simp [hq, ih]

theorem dictInsert_length_pos {α : Type} (d : List (String × α)) (k : String) (v : α) :
    0 < (dictInsert d k v).length := by
  cases d with
  | nil => simp [dictInsert]
  | cons p rest => by_cases h : p.1 = k <;> simp [dictInsert, h]

theorem dictLookup_appendGenoAll_self (genos : List (String × List String)) (sample tr : String) :
    dictLookup (appendGenoAll genos sample tr) sample
      = (dictLookup genos sample).map (fun l => l ++ [tr]) := by
  induction genos with
  | nil => simp [appendGenoAll, dictLookup]
  | cons p rest ih =>
    by_cases hp : p.1 = sample
    · simp only [appendGenoAll, List.map_cons, if_pos hp, dictLookup] at ih ⊢
      simp [hp]
    · simp only [appendGenoAll, List.map_cons, if_neg hp, dictLookup] at ih ⊢
      simp [hp, ih]

theorem dictLookup_appendGenoAll_ne (genos : List (String × List String)) (sample tr n : String)
    (h : n ≠ sample) :
    dictLookup (appendGenoAll genos sample tr) n = dictLookup genos n := by
  induction genos with
  | nil => simp [appendGenoAll, dictLookup]
  | cons p rest ih =>
    by_cases hp : p.1 = sample
    · have hpn : ¬ p.1 = n := fun e => h (e.symm.trans hp)
      simp only [appendGenoAll, List.map_cons, if_pos hp, dictLookup] at ih ⊢
      simp [hpn, ih]
    · simp only [appendGenoAll, List.map_cons, if_neg hp, dictLookup] at ih ⊢
      by_cases hq : p.1 = n <;> simp [hq, ih]

theorem appendGeno_eq_some (genos genos2 : List (String × List String)) (sample tr : String)
    (h : appendGeno genos sample tr = some genos2) :
    genos2 = appendGenoAll genos sample tr ∧ (dictLookup genos sample).isSome = true := by
  by_cases hs : (dictLookup genos sample).isSome
  · refine ⟨?_, hs⟩
    simp [appendGeno, hs] at h
    exact h.symm
  · simp [appendGeno, hs] at h

theorem lenOf_appendGenoAll (genos : List (String × List String)) (sample tr n : String) :
    lenOf (appendGenoAll genos sample tr) n
      = if n = sample then (lenOf genos n).map (· + 1) else lenOf genos n := by
  by_cases h : n = sample
  · subst h
    simp only [lenOf, dictLookup_appendGenoAll_self, if_pos rfl]
    cases dictLookup genos n <;> simp
  · simp [lenOf, dictLookup_appendGenoAll_ne genos sample tr n h, h]

theorem dictLookup_foldl_insert_nil (n : String) :
    ∀ (samples : List String) (d : List (String × List String)),
      dictLookup (samples.foldl (fun d s => dictInsert d s []) d) n
        = if n ∈ samples then some [] else dictLookup d n := by
  intro samples
  induction samples with
  | nil => intro d; simp
  | cons s rest ih =>
    intro d
    by_cases hr : n ∈ rest
    · simp [List.foldl_cons, ih, hr]
    · by_cases hs : n = s
      · subst hs
        simp [List.foldl_cons, ih, hr, dictLookup_dictInsert_self]
      · simp [List.foldl_cons, ih, hr, hs, dictLookup_dictInsert_ne _ _ _ _ hs]

theorem dictLookup_initOutputGenos (samples : List String) (n : String) :
    dictLookup (initOutputGenos samples) n = if n ∈ samples then some [] else none := by
  simpa [initOutputGenos, dictLookup] using dictLookup_foldl_insert_nil n samples []

/-! ## Recoding lemmas -/

theorem recodeSamples_lenOf (tbl : List (String × String)) (r : VariantRecord) :
    ∀ (samples : List String) (genos genos2 : List (String × List String)),
      samples.Nodup → recodeSamples tbl r samples genos = Except.ok genos2 →
      ∀ n, lenOf genos2 n
        = if n ∈ samples then (lenOf genos n).map (· + 1) else lenOf genos n := by
  intro samples
  induction samples with
  | nil =>
    intro genos genos2 _ h n
    simp only [recodeSamples] at h
    cases h
    simp
  | cons sample rest ih =>
    intro genos genos2 hnd h n
    simp only [recodeSamples] at h
    split at h
    · exact Except.noConfusion h
    rename_i gt hgt
    split at h
    · exact Except.noConfusion h
    rename_i tr htr
    split at h
    · exact Except.noConfusion h
    rename_i genos1 happ
    obtain ⟨rfl, _⟩ := appendGeno_eq_some genos genos1 sample tr happ
    obtain ⟨hns, hndr⟩ := List.nodup_cons.mp hnd
    have hstep := lenOf_appendGenoAll genos sample tr
    have hrest := ih _ _ hndr h
    by_cases he : n = sample
    · subst he
      have : n ∉ rest := hns
      rw [hrest n, if_neg this, hstep n, if_pos rfl]
      simp
    · rw [hrest n, hstep n, if_neg he]
      by_cases hmem : n ∈ rest
      · simp [hmem, List.mem_cons, he]
      · simp [hmem, List.mem_cons, he]

theorem recodeSamples_alphabet (tbl : List (String × String)) (r : VariantRecord)
    (htbl : ∀ gt d, dictLookup tbl gt = some d → inAlphabet d) :
    ∀ (samples : List String) (genos genos2 : List (String × List String)),
      recodeSamples tbl r samples genos = Except.ok genos2 →
      (∀ n l, dictLookup genos n = some l → ∀ x ∈ l, inAlphabet x) →
      ∀ n l, dictLookup genos2 n = some l → ∀ x ∈ l, inAlphabet x := by
  intro samples
  induction samples with
  | nil =>
    intro genos genos2 h hInv
    simp only [recodeSamples] at h
    cases h
    exact hInv
  | cons sample rest ih =>
    intro genos genos2 h hInv
    simp only [recodeSamples] at h
    split at h
    · exact Except.noConfusion h
    rename_i gt hgt
    split at h
    · exact Except.noConfusion h
    rename_i tr htr
    split at h
    · exact Except.noConfusion h
    rename_i genos1 happ
    obtain ⟨rfl, _⟩ := appendGeno_eq_some genos genos1 sample tr happ
    refine ih _ _ h ?_
    intro n l hl x hx
    by_cases he : n = sample
    · subst he
      rw [dictLookup_appendGenoAll_self] at hl
      cases hlk : dictLookup genos n with
      | none => rw [hlk] at hl; exact Option.noConfusion hl
      | some l0 =>
        rw [hlk] at hl
        cases hl
        rcases List.mem_append.mp hx with hx0 | hx1
        · exact hInv n l0 hlk x hx0
        · rw [List.mem_singleton.mp hx1]
          exact htbl gt tr htr
    · rw [dictLookup_appendGenoAll_ne genos sample tr n he] at hl
      exact hInv n l hl x hx

theorem recodeRecord_ok (tbl : List (String × String)) (samples : List String)
    (r : VariantRecord) (s st : OutState)
    (h : recodeRecord tbl samples r s = Except.ok st) :
    st.positions = s.positions ++ [toString r.POS] ∧
    recodeSamples tbl r samples s.genos = Except.ok st.genos := by
  unfold recodeRecord at h
  split at h
  · exact Except.noConfusion h
  rename_i g hg
  cases h
  exact ⟨rfl, hg⟩

/-! ## Record-loop lemmas -/

theorem processRecord_not_found (pg : PGDict) (parents samples : List String)
    (s : OutState) (r : VariantRecord)
    (h : dictLookup pg (toString r.POS) = none) :
    processRecord pg parents samples s r = Except.ok s := by
  simp [processRecord, h]

theorem processRecord_ok_cases (pg : PGDict) (parents samples : List String)
    (s : OutState) (r : VariantRecord) (s2 : OutState)
    (h : processRecord pg parents samples s r = Except.ok s2) :
    s2 = s ∨
    ∃ info tbl, dictLookup pg (toString r.POS) = some info ∧
      dictLookup info ("REF") = some r.REF ∧
      (∃ a0, r.ALT[0]? = some a0 ∧ dictLookup info ("ALT") = some a0) ∧
      selectTranslation info parents = Except.ok (some tbl) ∧
      recodeRecord tbl samples r s = Except.ok s2 := by
  unfold processRecord at h
  split at h
  · cases h; exact Or.inl rfl
  rename_i info hinfo
  split at h
  · exact Except.noConfusion h
  rename_i ref href
  split at h
  · rename_i heqref
    split at h
    · exact Except.noConfusion h
    rename_i alt halt
    split at h
    · exact Except.noConfusion h
    rename_i a0 ha0
    split at h
    · rename_i heqalt
      split at h
      · exact Except.noConfusion h
      · cases h; exact Or.inl rfl
      rename_i tbl hsel
      refine Or.inr ⟨info, tbl, hinfo, ?_, ⟨a0, ha0, ?_⟩, hsel, h⟩
      · rw [← heqref]; exact href
      · rw [heqalt] at halt; exact halt
    · exact Except.noConfusion h
  · exact Except.noConfusion h

theorem processRecord_ref_mismatch (pg : PGDict) (parents samples : List String)
    (s : OutState) (r : VariantRecord) (info : List (String × String)) (ref : String)
    (hinfo : dictLookup pg (toString r.POS) = some info)
    (href : dictLookup info ("REF") = some ref) (hne : ref ≠ r.REF) :
    processRecord pg parents samples s r
      = Except.error (Failure.exitMsg (refMismatchMsg r.POS)) := by
  simp [processRecord, hinfo, href, hne]

theorem processRecord_alt_mismatch (pg : PGDict) (parents samples : List String)
    (s : OutState) (r : VariantRecord) (info : List (String × String)) (alt a0 : String)
    (hinfo : dictLookup pg (toString r.POS) = some info)
    (href : dictLookup info ("REF") = some r.REF)
    (halt : dictLookup info ("ALT") = some alt)
    (ha0 : r.ALT[0]? = some a0) (hne : alt ≠ a0) :
    processRecord pg parents samples s r
      = Except.error (Failure.exitMsg (altMismatchMsg r.POS)) := by
  simp [processRecord, hinfo, href, halt, ha0, hne]

theorem processRecord_accept (pg : PGDict) (parents samples : List String)
    (s : OutState) (r : VariantRecord) (info : List (String × String))
    (tbl : List (String × String)) (a0 : String)
    (hinfo : dictLookup pg (toString r.POS) = some info)
    (href : dictLookup info ("REF") = some r.REF)
    (halt : dictLookup info ("ALT") = some a0)
    (ha0 : r.ALT[0]? = some a0)
    (hsel : selectTranslation info parents = Except.ok (some tbl)) :
    processRecord pg parents samples s r = recodeRecord tbl samples r s := by
  simp [processRecord, hinfo, href, halt, ha0, hsel]

theorem processRecord_skip_uninformative (pg : PGDict) (parents samples : List String)
    (s : OutState) (r : VariantRecord) (info : List (String × String)) (a0 : String)
    (hinfo : dictLookup pg (toString r.POS) = some info)
    (href : dictLookup info ("REF") = some r.REF)
    (halt : dictLookup info ("ALT") = some a0)
    (ha0 : r.ALT[0]? = some a0)
    (hsel : selectTranslation info parents = Except.ok none) :
    processRecord pg parents samples s r = Except.ok s := by
  simp [processRecord, hinfo, href, halt, ha0, hsel]

theorem selectTranslation_proper (info : List (String × String)) (parents : List String)
    (h0 : parentGeno info parents 0 = Except.ok ("0/0"))
    (h1 : parentGeno info parents 1 = Except.ok ("1/1")) :
    selectTranslation info parents = Except.ok (some genotypeTranslationDictProper) := by
  simp [selectTranslation, h0, h1]

theorem selectTranslation_inverted (info : List (String × String)) (parents : List String)
    (h0 : parentGeno info parents 0 = Except.ok ("1/1"))
    (h1 : parentGeno info parents 1 = Except.ok ("0/0")) :
    selectTranslation info parents = Except.ok (some genotypeTranslationDictInv) := by
  simp [selectTranslation, selectTranslationElif, h0, h1]

theorem selectTranslation_none (info : List (String × String)) (parents : List String)
    (g0 g1 : String)
    (h0 : parentGeno info parents 0 = Except.ok g0)
    (h1 : parentGeno info parents 1 = Except.ok g1)
    (hn1 : ¬(g0 = "0/0" ∧ g1 = "1/1"))
    (hn2 : ¬(g0 = "1/1" ∧ g1 = "0/0")) :
    selectTranslation info parents = Except.ok none := by
  by_cases e0 : g0 = "0/0"
  · have e1 : ¬ g1 = "1/1" := fun e => hn1 ⟨e0, e⟩
    simp [selectTranslation, selectTranslationElif, h0, h1, e0, e1]
  · by_cases e2 : g0 = "1/1"
    · have e3 : ¬ g1 = "0/0" := fun e => hn2 ⟨e2, e⟩
      simp [selectTranslation, selectTranslationElif, h0, h1, e0, e2, e3]
    · simp [selectTranslation, selectTranslationElif, h0, e0, e2]

theorem selectTranslation_tables (info : List (String × String)) (parents : List String)
    (tbl : List (String × String))
    (h : selectTranslation info parents = Except.ok (some tbl)) :
    tbl = genotypeTranslationDictProper ∨ tbl = genotypeTranslationDictInv := by
  unfold selectTranslation selectTranslationElif at h
  repeat' split at h
  all_goals simp_all

theorem dictLookup_proper_none (gt : String) (h1 : gt ≠ "0/0") (h2 : gt ≠ "0/1")
    (h3 : gt ≠ "1/1") (h4 : gt ≠ "./.") :
    dictLookup genotypeTranslationDictProper gt = none := by
  simp [genotypeTranslationDictProper, dictLookup,
    Ne.symm h1, Ne.symm h2, Ne.symm h3, Ne.symm h4]

theorem dictLookup_inv_none (gt : String) (h1 : gt ≠ "0/0") (h2 : gt ≠ "0/1")
    (h3 : gt ≠ "1/1") (h4 : gt ≠ "./.") :
    dictLookup genotypeTranslationDictInv gt = none := by
  simp [genotypeTranslationDictInv, dictLookup,
    Ne.symm h1, Ne.symm h2, Ne.symm h3, Ne.symm h4]

theorem dictLookup_proper_mem (gt d : String)
    (h : dictLookup genotypeTranslationDictProper gt = some d) : inAlphabet d := by
  simp only [genotypeTranslationDictProper, dictLookup] at h
  repeat' split at h
  all_goals simp_all [inAlphabet]

theorem dictLookup_inv_mem (gt d : String)
    (h : dictLookup genotypeTranslationDictInv gt = some d) : inAlphabet d := by
  simp only [genotypeTranslationDictInv, dictLookup] at h
  repeat' split at h
  all_goals simp_all [inAlphabet]

theorem processRecords_cons_ok (pg : PGDict) (parents samples : List String)
    (r : VariantRecord) (rs : List VariantRecord) (s s2 : OutState)
    (h : processRecord pg parents samples s r = Except.ok s2) :
    processRecords pg parents samples (r :: rs) s
      = processRecords pg parents samples rs s2 := by
  simp [processRecords, h]

theorem processRecords_cons_error (pg : PGDict) (parents samples : List String)
    (r : VariantRecord) (rs : List VariantRecord) (s : OutState) (f : Failure)
    (h : processRecord pg parents samples s r = Except.error f) :
    processRecords pg parents samples (r :: rs) s = Except.error f := by
  simp [processRecords, h]

theorem processRecords_positions_found (pg : PGDict) (parents samples : List String) :
    ∀ (records : List VariantRecord) (s st : OutState),
      processRecords pg parents samples records s = Except.ok st →
      ∀ p ∈ st.positions, p ∈ s.positions ∨ (dictLookup pg p).isSome = true := by
  intro records
  induction records with
  | nil =>
    intro s st h p hp
    simp only [processRecords] at h
    cases h
    exact Or.inl hp
  | cons r rs ih =>
    intro s st h p hp
    simp only [processRecords] at h
    split at h
    · exact Except.noConfusion h
    rename_i s2 h2
    rcases ih s2 st h p hp with hin | hsome
    · rcases processRecord_ok_cases pg parents samples s r s2 h2 with rfl | hacc
      · exact Or.inl hin
      · obtain ⟨info, tbl, hinfo, _, _, _, hrec⟩ := hacc
        have hpos := (recodeRecord_ok tbl samples r s s2 hrec).1
        rw [hpos] at hin
        rcases List.mem_append.mp hin with h1 | h1
        · exact Or.inl h1
        · right
          rw [List.mem_singleton.mp h1, hinfo]
          rfl
    · exact Or.inr hsome

theorem processRecord_lenInv (pg : PGDict) (parents samples : List String)
    (s s2 : OutState) (r : VariantRecord) (hnd : samples.Nodup)
    (h : processRecord pg parents samples s r = Except.ok s2)
    (hInv : ∀ n ∈ samples, lenOf s.genos n = some s.positions.length) :
    ∀ n ∈ samples, lenOf s2.genos n = some s2.positions.length := by
  rcases processRecord_ok_cases pg parents samples s r s2 h with rfl | hacc
  · exact hInv
  · obtain ⟨info, tbl, _, _, _, _, hrec⟩ := hacc
    obtain ⟨hpos, hsam⟩ := recodeRecord_ok tbl samples r s s2 hrec
    intro n hn
    rw [recodeSamples_lenOf tbl r samples s.genos s2.genos hnd hsam n,
      if_pos hn, hInv n hn, hpos]
    simp

theorem processRecords_lenInv (pg : PGDict) (parents samples : List String)
    (hnd : samples.Nodup) :
    ∀ (records : List VariantRecord) (s st : OutState),
      processRecords pg parents samples records s = Except.ok st →
      (∀ n ∈ samples, lenOf s.genos n = some s.positions.length) →
      ∀ n ∈ samples, lenOf st.genos n = some st.positions.length := by
  intro records
  induction records with
  | nil =>
    intro s st h hInv
    simp only [processRecords] at h
    cases h
    exact hInv
  | cons r rs ih =>
    intro s st h hInv
    simp only [processRecords] at h
    split at h
    · exact Except.noConfusion h
    rename_i s2 h2
    exact ih s2 st h (processRecord_lenInv pg parents samples s s2 r hnd h2 hInv)

theorem processRecord_alphabet (pg : PGDict) (parents samples : List String)
    (s s2 : OutState) (r : VariantRecord)
    (h : processRecord pg parents samples s r = Except.ok s2)
    (hInv : ∀ n l, dictLookup s.genos n = some l → ∀ x ∈ l, inAlphabet x) :
    ∀ n l, dictLookup s2.genos n = some l → ∀ x ∈ l, inAlphabet x := by
  rcases processRecord_ok_cases pg parents samples s r s2 h with rfl | hacc
  · exact hInv
  · obtain ⟨info, tbl, _, _, _, hsel, hrec⟩ := hacc
    obtain ⟨_, hsam⟩ := recodeRecord_ok tbl samples r s s2 hrec
    have htbl : ∀ gt d, dictLookup tbl gt = some d → inAlphabet d := by
      rcases selectTranslation_tables info parents tbl hsel with rfl | rfl
      · exact dictLookup_proper_mem
      · exact dictLookup_inv_mem
    exact recodeSamples_alphabet tbl r htbl samples s.genos s2.genos hsam hInv

theorem processRecords_alphabet (pg : PGDict) (parents samples : List String) :
    ∀ (records : List VariantRecord) (s st : OutState),
      processRecords pg parents samples records s = Except.ok st →
      (∀ n l, dictLookup s.genos n = some l → ∀ x ∈ l, inAlphabet x) →
      ∀ n l, dictLookup st.genos n = some l → ∀ x ∈ l, inAlphabet x := by
  intro records
  induction records with
  | nil =>
    intro s st h hInv
    simp only [processRecords] at h
    cases h
    exact hInv
  | cons r rs ih =>
    intro s st h hInv
    simp only [processRecords] at h
    split at h
    · exact Except.noConfusion h
    rename_i s2 h2
    exact ih s2 st h (processRecord_alphabet pg parents samples s s2 r h2 hInv)

theorem integrityScan_all_ok (genos : List (String × List String)) (nPos : Nat) :
    ∀ samples : List String,
      (∀ smp ∈ samples, ∃ l, dictLookup genos smp = some l ∧ l.length = nPos) →
      integrityScan genos nPos samples = Except.ok (0, []) := by
  intro samples
  induction samples with
  | nil => intro _; rfl
  | cons smp rest ih =>
    intro hall
    obtain ⟨l, hl, hlen⟩ := hall smp (List.mem_cons_self smp rest)
    have hrest := ih (fun x hx => hall x (List.mem_cons_of_mem smp hx))
    simp [integrityScan, hl, hrest, hlen]

theorem integrityScan_spec (genos : List (String × List String)) (nPos : Nat) :
    ∀ (samples : List String) (nBad : Nat) (msgs : List String),
      integrityScan genos nPos samples = Except.ok (nBad, msgs) →
      msgs = integrityWarnings genos nPos samples ∧
      (nBad = 0 ↔ ∀ smp ∈ samples, ∃ l, dictLookup genos smp = some l ∧ l.length = nPos) := by
  intro samples
  induction samples with
  | nil =>
    intro nBad msgs h
    simp only [integrityScan] at h
    cases h
    simp [integrityWarnings]
  | cons smp rest ih =>
    intro nBad msgs h
    simp only [integrityScan] at h
    split at h
    · exact Except.noConfusion h
    rename_i l hl
    split at h
    · exact Except.noConfusion h
    rename_i nBad0 msgs0 hscan
    obtain ⟨hmsgs0, hiff0⟩ := ih nBad0 msgs0 hscan
    have hcount : sampleGenoCount genos smp = l.length := by
      simp [sampleGenoCount, hl]
    split at h
    · rename_i hlen
      cases h
      constructor
      · rw [hmsgs0]
        simp [integrityWarnings, List.filter_cons, hcount, hlen]
      · rw [hiff0]
        constructor
        · intro hall x hx
          rcases List.mem_cons.mp hx with rfl | hx0
          · exact ⟨l, hl, hlen⟩
          · exact hall x hx0
        · intro hall x hx
          exact hall x (List.mem_cons_of_mem smp hx)
    · rename_i hlen
      cases h
      constructor
      · rw [hmsgs0]
        simp [integrityWarnings, List.filter_cons, hcount, hlen]
      · constructor
        · intro habs
          exact absurd habs (Nat.succ_ne_zero nBad0)
        · intro hall
          obtain ⟨l2, hl2, hlen2⟩ := hall smp (List.mem_cons_self smp rest)
          rw [hl] at hl2
          cases hl2
          exact absurd hlen2 hlen

instance instDecidableEqExceptPSV {ε α : Type} [DecidableEq ε] [DecidableEq α] :
    DecidableEq (Except ε α) :=
  fun x y =>
    match x, y with
    | Except.ok a, Except.ok b =>
      if h : a = b then isTrue (by rw [h]) else isFalse (fun e => h (Except.ok.inj e))
    | Except.error a, Except.error b =>
      if h : a = b then isTrue (by rw [h]) else isFalse (fun e => h (Except.error.inj e))
    | Except.ok _, Except.error _ => isFalse (fun e => Except.noConfusion e)
    | Except.error _, Except.ok _ => isFalse (fun e => Except.noConfusion e)

/-- Claim C1: the recoder maps each sample's raw genotype by exactly one of two
fixed tables chosen per position. Under the proper rule hom-ref recodes to 0,
het to 1, hom-alt to 2, missing to NA; under the inverted rule hom-ref recodes
to 2, het to 1, hom-alt to 0, missing to NA. Founder genotypes (0/0, 1/1)
select the proper rule, the swapped founder genotypes select the inverted
rule, and an accepted record is recoded for every sample with the selected
table. -/
theorem claim_C1 :
    (dictLookup genotypeTranslationDictProper ("0/0") = some ("0") ∧
      dictLookup genotypeTranslationDictProper ("0/1") = some ("1") ∧
      dictLookup genotypeTranslationDictProper ("1/1") = some ("2") ∧
      dictLookup genotypeTranslationDictProper ("./.") = some ("NA") ∧
      dictLookup genotypeTranslationDictInv ("0/0") = some ("2") ∧
      dictLookup genotypeTranslationDictInv ("0/1") = some ("1") ∧
      dictLookup genotypeTranslationDictInv ("1/1") = some ("0") ∧
      dictLookup genotypeTranslationDictInv ("./.") = some ("NA")) ∧
    (∀ (info : List (String × String)) (parents : List String),
      parentGeno info parents 0 = Except.ok ("0/0") →
      parentGeno info parents 1 = Except.ok ("1/1") →
      selectTranslation info parents = Except.ok (some genotypeTranslationDictProper)) ∧
    (∀ (info : List (String × String)) (parents : List String),
      parentGeno info parents 0 = Except.ok ("1/1") →
      parentGeno info parents 1 = Except.ok ("0/0") →
      selectTranslation info parents = Except.ok (some genotypeTranslationDictInv)) ∧
    (∀ (pg : PGDict) (parents samples : List String) (s : OutState) (r : VariantRecord)
      (info tbl : List (String × String)) (a0 : String),
      dictLookup pg (toString r.POS) = some info →
      dictLookup info ("REF") = some r.REF →
      dictLookup info ("ALT") = some a0 →
      r.ALT[0]? = some a0 →
      selectTranslation info parents = Except.ok (some tbl) →
      processRecord pg parents samples s r = recodeRecord tbl samples r s) :=
  ⟨⟨rfl, rfl, rfl, rfl, rfl, rfl, rfl, rfl⟩,
   selectTranslation_proper,
   selectTranslation_inverted,
   fun pg parents samples s r info tbl a0 h1 h2 h3 h4 h5 =>
     processRecord_accept pg parents samples s r info tbl a0 h1 h2 h3 h4 h5⟩

/-- Witness for C1 at concrete founder rows and a concrete accepted record. -/
theorem claim_C1_witness :
    selectTranslation [("REF", "A"), ("ALT", "T"), ("P1", "0/0"), ("P2", "1/1")] ["P1", "P2"]
        = Except.ok (some genotypeTranslationDictProper) ∧
    selectTranslation [("REF", "A"), ("ALT", "T"), ("P1", "1/1"), ("P2", "0/0")] ["P1", "P2"]
        = Except.ok (some genotypeTranslationDictInv) ∧
    processRecord [(("100"), [("REF", "A"), ("ALT", "T"), ("P1", "0/0"), ("P2", "1/1")])]
        ["P1", "P2"] ["s1", "s2"] (initState ["s1", "s2"])
        { CHROM := "chr1", POS := 100, REF := "A", ALT := ["T"],
          calls := [("s1", "0/0"), ("s2", "1/1")] }
      = recodeRecord genotypeTranslationDictProper ["s1", "s2"]
          { CHROM := "chr1", POS := 100, REF := "A", ALT := ["T"],
            calls := [("s1", "0/0"), ("s2", "1/1")] }
          (initState ["s1", "s2"]) :=
  ⟨claim_C1.2.1 _ _ (by decide) (by decide),
   claim_C1.2.2.1 _ _ (by decide) (by decide),
   claim_C1.2.2.2 _ _ _ _ _
     [("REF", "A"), ("ALT", "T"), ("P1", "0/0"), ("P2", "1/1")]
     genotypeTranslationDictProper ("T")
     (by decide) (by decide) (by decide) (by decide) (by decide)⟩

/-- Claim C2: an accepted position has founder REF equal to the record REF and
founder ALT equal to the record's first alternate allele; a REF or ALT
mismatch at a founder-table position makes the record loop terminate at once
with the fatal `sys.exit` message, so no later record is processed and no
output is produced. -/
theorem claim_C2 :
    (∀ (pg : PGDict) (parents samples : List String) (s : OutState) (r : VariantRecord)
      (s2 : OutState),
      processRecord pg parents samples s r = Except.ok s2 →
      s2.positions ≠ s.positions →
      ∃ info, dictLookup pg (toString r.POS) = some info ∧
        dictLookup info ("REF") = some r.REF ∧
        ∃ a0, r.ALT[0]? = some a0 ∧ dictLookup info ("ALT") = some a0) ∧
    (∀ (pg : PGDict) (parents samples : List String) (s : OutState) (r : VariantRecord)
      (info : List (String × String)) (ref : String),
      dictLookup pg (toString r.POS) = some info →
      dictLookup info ("REF") = some ref →
      ref ≠ r.REF →
      processRecord pg parents samples s r
        = Except.error (Failure.exitMsg (refMismatchMsg r.POS))) ∧
    (∀ (pg : PGDict) (parents samples : List String) (s : OutState) (r : VariantRecord)
      (info : List (String × String)) (alt a0 : String),
      dictLookup pg (toString r.POS) = some info →
      dictLookup info ("REF") = some r.REF →
      dictLookup info ("ALT") = some alt →
      r.ALT[0]? = some a0 →
      alt ≠ a0 →
      processRecord pg parents samples s r
        = Except.error (Failure.exitMsg (altMismatchMsg r.POS))) ∧
    (∀ (pg : PGDict) (parents samples : List String) (s : OutState) (r : VariantRecord)
      (rs : List VariantRecord) (f : Failure),
      processRecord pg parents samples s r = Except.error f →
      processRecords pg parents samples (r :: rs) s = Except.error f) := by
  refine ⟨?_, processRecord_ref_mismatch, processRecord_alt_mismatch, ?_⟩
  · intro pg parents samples s r s2 h hne
    rcases processRecord_ok_cases pg parents samples s r s2 h with rfl | hacc
    · exact absurd rfl hne
    · obtain ⟨info, tbl, hinfo, href, ⟨a0, ha0, halt⟩, _, _⟩ := hacc
      exact ⟨info, hinfo, href, a0, ha0, halt⟩
  · intro pg parents samples s r rs f h
    exact processRecords_cons_error pg parents samples r rs s f h

/-- Witness for C2: a concrete REF mismatch is fatal and stops the loop. -/
theorem claim_C2_witness :
    processRecord [(("100"), [("REF", "G"), ("ALT", "T"), ("P1", "0/0"), ("P2", "1/1")])]
        ["P1", "P2"] ["s1"] (initState ["s1"])
        { CHROM := "chr1", POS := 100, REF := "A", ALT := ["T"], calls := [("s1", "0/1")] }
      = Except.error (Failure.exitMsg (refMismatchMsg 100)) ∧
    processRecords [(("100"), [("REF", "G"), ("ALT", "T"), ("P1", "0/0"), ("P2", "1/1")])]
        ["P1", "P2"] ["s1"]
        [{ CHROM := "chr1", POS := 100, REF := "A", ALT := ["T"], calls := [("s1", "0/1")] },
         { CHROM := "chr1", POS := 200, REF := "C", ALT := ["G"], calls := [("s1", "0/0")] }]
        (initState ["s1"])
      = Except.error (Failure.exitMsg (refMismatchMsg 100)) :=
  ⟨claim_C2.2.1 _ _ _ _ _
     [("REF", "G"), ("ALT", "T"), ("P1", "0/0"), ("P2", "1/1")] ("G")
     (by decide) (by decide) (by decide),
   claim_C2.2.2.2 _ _ _ _ _ _ _
     (claim_C2.2.1 _ _ _ _ _
       [("REF", "G"), ("ALT", "T"), ("P1", "0/0"), ("P2", "1/1")] ("G")
       (by decide) (by decide) (by decide))⟩

/-- Claim C3: a record at a founder-table position whose two founder genotypes
do not form a clean homozygous-opposite pair is skipped entirely after a
warning — the state is left unchanged (no position appended, no sample
recoded) and the loop continues with the next record. -/
theorem claim_C3 (pg : PGDict) (parents samples : List String) (s : OutState)
    (r : VariantRecord) (rs : List VariantRecord)
    (info : List (String × String)) (a0 g0 g1 : String)
    (hinfo : dictLookup pg (toString r.POS) = some info)
    (href : dictLookup info ("REF") = some r.REF)
    (halt : dictLookup info ("ALT") = some a0)
    (ha0 : r.ALT[0]? = some a0)
    (h0 : parentGeno info parents 0 = Except.ok g0)
    (h1 : parentGeno info parents 1 = Except.ok g1)
    (hn1 : ¬(g0 = "0/0" ∧ g1 = "1/1"))
    (hn2 : ¬(g0 = "1/1" ∧ g1 = "0/0")) :
    processRecord pg parents samples s r = Except.ok s ∧
    processRecords pg parents samples (r :: rs) s
      = processRecords pg parents samples rs s := by
  have hsel := selectTranslation_none info parents g0 g1 h0 h1 hn1 hn2
  have hskip := processRecord_skip_uninformative pg parents samples s r info a0
    hinfo href halt ha0 hsel
  exact ⟨hskip, processRecords_cons_ok pg parents samples r rs s s hskip⟩

/-- Witness for C3: a heterozygous founder at position 100 leaves the state
unchanged. -/
theorem claim_C3_witness :
    processRecord [(("100"), [("REF", "A"), ("ALT", "T"), ("P1", "0/1"), ("P2", "1/1")])]
        ["P1", "P2"] ["s1"] (initState ["s1"])
        { CHROM := "chr1", POS := 100, REF := "A", ALT := ["T"], calls := [("s1", "0/1")] }
      = Except.ok (initState ["s1"]) ∧
    processRecords [(("100"), [("REF", "A"), ("ALT", "T"), ("P1", "0/1"), ("P2", "1/1")])]
        ["P1", "P2"] ["s1"]
        [{ CHROM := "chr1", POS := 100, REF := "A", ALT := ["T"], calls := [("s1", "0/1")] }]
        (initState ["s1"])
      = processRecords [(("100"), [("REF", "A"), ("ALT", "T"), ("P1", "0/1"), ("P2", "1/1")])]
          ["P1", "P2"] ["s1"] [] (initState ["s1"]) :=
  claim_C3 _ _ _ _ _ _
    [("REF", "A"), ("ALT", "T"), ("P1", "0/1"), ("P2", "1/1")] ("T") ("0/1") ("1/1")
    (by decide) (by decide) (by decide) (by decide) (by decide) (by decide)
    (by decide) (by decide)

/-- Claim C4: a record whose position string is absent from the founder lookup
is skipped non-fatally with the state unchanged, every accepted position comes
from the founder lookup, and the output header row is built from exactly the
accepted positions — so an absent position never appears in the header. -/
theorem claim_C4 :
    (∀ (pg : PGDict) (parents samples : List String) (s : OutState) (r : VariantRecord),
      dictLookup pg (toString r.POS) = none →
      processRecord pg parents samples s r = Except.ok s) ∧
    (∀ (pg : PGDict) (parents samples : List String) (records : List VariantRecord)
      (st : OutState),
      processRecords pg parents samples records (initState samples) = Except.ok st →
      ∀ p ∈ st.positions, (dictLookup pg p).isSome = true) ∧
    (∀ (st : OutState) (samples : List String) (lines : List String),
      outputLines st samples = Except.ok lines →
      lines.head? = some (joinComma (("sample") :: st.positions))) := by
  refine ⟨processRecord_not_found, ?_, ?_⟩
  · intro pg parents samples records st h p hp
    rcases processRecords_positions_found pg parents samples records
      (initState samples) st h p hp with habs | hsome
    · simp [initState] at habs
    · exact hsome
  · intro st samples lines h
    unfold outputLines at h
    split at h
    · exact Except.noConfusion h
    rename_i rows hrows
    cases h
    rfl

/-- Witness for C4: a record at position 999, absent from a founder table that
only knows position 100, is skipped; the only accepted position is found in
the table and heads the output. -/
theorem claim_C4_witness :
    processRecord [(("100"), [("REF", "A"), ("ALT", "T"), ("P1", "0/0"), ("P2", "1/1")])]
        ["P1", "P2"] ["s1"] (initState ["s1"])
        { CHROM := "chr1", POS := 999, REF := "A", ALT := ["T"], calls := [("s1", "0/1")] }
      = Except.ok (initState ["s1"]) ∧
    (∀ p ∈ (OutState.mk [("100")] [("s1", [("1")])]).positions,
      (dictLookup [(("100"), [("REF", "A"), ("ALT", "T"), ("P1", "0/0"), ("P2", "1/1")])] p).isSome
        = true) ∧
    (([("sample,100"), ("s1,1")] : List String).head?
      = some (joinComma (("sample") :: (OutState.mk [("100")] [("s1", [("1")])]).positions))) :=
  ⟨claim_C4.1 _ _ _ _ _ (by decide),
   claim_C4.2.1 _ ["P1", "P2"] ["s1"]
     [{ CHROM := "chr1", POS := 100, REF := "A", ALT := ["T"], calls := [("s1", "0/1")] }]
     _ (by decide),
   claim_C4.2.2 _ ["s1"] _ (by decide)⟩

/-- Claim C5: accepting a position appends exactly one position entry and one
dosage per sample, and skipping appends nothing, so after any prefix of the
stream every sample's dosage count equals the accepted-position count; hence
whenever the loop completes without crashing the final integrity check
succeeds (returning `true` with no warnings). -/
theorem claim_C5 (pg : PGDict) (parents samples : List String)
    (records : List VariantRecord) (st : OutState) (hnd : samples.Nodup)
    (h : processRecords pg parents samples records (initState samples) = Except.ok st) :
    (∀ smp ∈ samples, ∃ l, dictLookup st.genos smp = some l ∧
      l.length = st.positions.length) ∧
    verifyOutputGenoIntegrity st samples = Except.ok (true, []) := by
  have hinit : ∀ n ∈ samples, lenOf (initState samples).genos n
      = some (initState samples).positions.length := by
    intro n hn
    simp [initState, lenOf, dictLookup_initOutputGenos, hn]
  have hlen := processRecords_lenInv pg parents samples hnd records
    (initState samples) st h hinit
  have hall : ∀ smp ∈ samples, ∃ l, dictLookup st.genos smp = some l ∧
      l.length = st.positions.length := by
    intro smp hs
    have hsmp := hlen smp hs
    cases hlk : dictLookup st.genos smp with
    | none => rw [lenOf, hlk] at hsmp; exact Option.noConfusion hsmp
    | some l =>
      refine ⟨l, rfl, ?_⟩
      rw [lenOf, hlk] at hsmp
      simpa using hsmp
  refine ⟨hall, ?_⟩
  simp [verifyOutputGenoIntegrity,
    integrityScan_all_ok st.genos st.positions.length samples hall]

/-- Witness for C5: a two-sample run accepting one position keeps both dosage
rows in step with the positions row and passes the final check. -/
theorem claim_C5_witness :
    (∀ smp ∈ (["s1", "s2"] : List String), ∃ l,
      dictLookup (OutState.mk [("100")] [("s1", [("1")]), ("s2", [("2")])]).genos smp
        = some l ∧
      l.length = (OutState.mk [("100")] [("s1", [("1")]), ("s2", [("2")])]).positions.length) ∧
    verifyOutputGenoIntegrity (OutState.mk [("100")] [("s1", [("1")]), ("s2", [("2")])])
        ["s1", "s2"]
      = Except.ok (true, []) :=
  claim_C5 [(("100"), [("REF", "A"), ("ALT", "T"), ("P1", "0/0"), ("P2", "1/1")])]
    ["P1", "P2"] ["s1", "s2"]
    [{ CHROM := "chr1", POS := 100, REF := "A", ALT := ["T"],
       calls := [("s1", "0/1"), ("s2", "1/1")] }]
    (OutState.mk [("100")] [("s1", [("1")]), ("s2", [("2")])])
    (by decide) (by decide)

/-- Claim C6: the integrity checker returns `true` exactly when every sample's
dosage count equals the accepted-position count, logs one warning per
inconsistent sample, and a `false` result is fatal — `finishRun` exits with
the fatal message and emits no output lines. -/
theorem claim_C6 (st : OutState) (samples : List String) (b : Bool)
    (msgs : List String) (ow : Bool)
    (h : verifyOutputGenoIntegrity st samples = Except.ok (b, msgs)) :
    (b = true ↔ ∀ smp ∈ samples, ∃ l, dictLookup st.genos smp = some l ∧
      l.length = st.positions.length) ∧
    msgs = integrityWarnings st.genos st.positions.length samples ∧
    (b = false →
      finishRun st samples ow = RunResult.failure (Failure.exitMsg outputFailMsg)) := by
  unfold verifyOutputGenoIntegrity at h
  split at h
  · exact Except.noConfusion h
  rename_i nBad msgs0 hscan
  obtain ⟨hm, hiff⟩ := integrityScan_spec st.genos st.positions.length samples nBad msgs0 hscan
  injection h with h2
  injection h2 with hb hmsgs
  subst hb
  subst hmsgs
  have hv : verifyOutputGenoIntegrity st samples = Except.ok (nBad == 0, msgs0) := by
    unfold verifyOutputGenoIntegrity
    rw [hscan]
  refine ⟨?_, hm, ?_⟩
  · simp only [beq_iff_eq]
    exact hiff
  · intro hbf
    rw [hbf] at hv
    simp [finishRun, hv]

/-- Witness for C6: one accepted position but an empty dosage row makes the
check return `false` with one warning and makes the run end fatally with no
output. -/
theorem claim_C6_witness :
    ((false : Bool) = true ↔ ∀ smp ∈ (["s1"] : List String), ∃ l,
      dictLookup (OutState.mk [("100")] [("s1", [])]).genos smp = some l ∧
      l.length = (OutState.mk [("100")] [("s1", [])]).positions.length) ∧
    [integrityMessage ("s1") 0 1]
      = integrityWarnings (OutState.mk [("100")] [("s1", [])]).genos
          (OutState.mk [("100")] [("s1", [])]).positions.length ["s1"] ∧
    ((false : Bool) = false →
      finishRun (OutState.mk [("100")] [("s1", [])]) ["s1"] true
        = RunResult.failure (Failure.exitMsg outputFailMsg)) :=
  claim_C6 (OutState.mk [("100")] [("s1", [])]) ["s1"] false
    [integrityMessage ("s1") 0 1] true (by decide)

/-- Claim C7 (code bug in the source): `openIOFile` reacts to an inaccessible
input file with `sys.exit(0)`, so the input-access fatal path terminates the
process with exit status 0 — the success status — while every other fatal
path uses `sys.exit(message)` and exits with status 1, and normal completion
emits the output lines and exits 0. -/
theorem claim_C7 :
    runMain none (some { samples := [], records := [] }) ("chr1") true
      = RunResult.failure Failure.exitZero ∧
    runMain (some [[("CHROM"), ("POS"), ("REF"), ("ALT"), ("P1"), ("P2")],
        [("chr1"), ("100"), ("A"), ("T"), ("0/0"), ("1/1")]]) none ("chr1") true
      = RunResult.failure Failure.exitZero ∧
    RunResult.exitCode (RunResult.failure Failure.exitZero) = 0 ∧
    Failure.exitCode (Failure.exitMsg outputFailMsg) = 1 ∧
    Failure.exitCode (Failure.exitMsg parentalHeaderErrMsg) = 1 ∧
    runMain (some [[("CHROM"), ("POS"), ("REF"), ("ALT"), ("P1"), ("P2")],
        [("chr1"), ("100"), ("A"), ("T"), ("0/0"), ("1/1")]])
      (some { samples := [("s1")],
              records := [{ CHROM := "chr1", POS := 100, REF := "A", ALT := ["T"],
                            calls := [("s1", "0/1")] }] })
      ("chr1") true
      = RunResult.success [("sample,100"), ("s1,1")] :=
  ⟨by decide, by decide, rfl, rfl, rfl, by decide⟩

/-- Claim C8: the recoder is a fixed-table lookup — any raw genotype string
outside the four handled keys is absent from both tables and makes the recode
step fail with a `KeyError` instead of returning a value; every value the
tables can return lies in the alphabet 0, 1, 2, NA, and every dosage ever
stored in the matrix lies in that alphabet. -/
theorem claim_C8 :
    (∀ gt : String, gt ≠ "0/0" → gt ≠ "0/1" → gt ≠ "1/1" → gt ≠ "./." →
      dictLookup genotypeTranslationDictProper gt = none ∧
      dictLookup genotypeTranslationDictInv gt = none) ∧
    (∀ gt d : String,
      (dictLookup genotypeTranslationDictProper gt = some d ∨
        dictLookup genotypeTranslationDictInv gt = some d) → inAlphabet d) ∧
    (∀ (tbl : List (String × String)) (r : VariantRecord) (sample : String)
      (rest : List String) (genos : List (String × List String)) (gt : String),
      dictLookup r.calls sample = some gt →
      dictLookup tbl gt = none →
      recodeSamples tbl r (sample :: rest) genos
        = Except.error (Failure.pyError ("KeyError: genotype not in translation dict"))) ∧
    (∀ (pg : PGDict) (parents samples : List String) (records : List VariantRecord)
      (st : OutState),
      processRecords pg parents samples records (initState samples) = Except.ok st →
      ∀ n l, dictLookup st.genos n = some l → ∀ x ∈ l, inAlphabet x) := by
  refine ⟨?_, ?_, ?_, ?_⟩
  · intro gt h1 h2 h3 h4
    exact ⟨dictLookup_proper_none gt h1 h2 h3 h4, dictLookup_inv_none gt h1 h2 h3 h4⟩
  · intro gt d h
    rcases h with h | h
    · exact dictLookup_proper_mem gt d h
    · exact dictLookup_inv_mem gt d h
  · intro tbl r sample rest genos gt hgt htbl
    simp [recodeSamples, hgt, htbl]
  · intro pg parents samples records st h
    refine processRecords_alphabet pg parents samples records (initState samples) st h ?_
    intro n l hl x hx
    simp only [initState] at hl
    rw [dictLookup_initOutputGenos] at hl
    split at hl
    · cases hl
      cases hx
    · exact Option.noConfusion hl

/-- Witness for C8: the unhandled genotype string 2/2 is absent from both
tables, a record call with the unhandled genotype 1/2 crashes the recode
step, and a dosage produced by a real run lies in the alphabet. -/
theorem claim_C8_witness :
    (dictLookup genotypeTranslationDictProper ("2/2") = none ∧
      dictLookup genotypeTranslationDictInv ("2/2") = none) ∧
    recodeSamples genotypeTranslationDictProper
        { CHROM := "chr1", POS := 100, REF := "A", ALT := ["T"], calls := [("s1", "1/2")] }
        [("s1")] [(("s1"), [])]
      = Except.error (Failure.pyError ("KeyError: genotype not in translation dict")) ∧
    inAlphabet ("1") :=
  ⟨claim_C8.1 ("2/2") (by decide) (by decide) (by decide) (by decide),
   claim_C8.2.2.1 genotypeTranslationDictProper
     { CHROM := "chr1", POS := 100, REF := "A", ALT := ["T"], calls := [("s1", "1/2")] }
     ("s1") [] [(("s1"), [])] ("1/2") (by decide) (by decide),
   claim_C8.2.2.2 [(("100"), [("REF", "A"), ("ALT", "T"), ("P1", "0/0"), ("P2", "1/1")])]
     ["P1", "P2"] [("s1")]
     [{ CHROM := "chr1", POS := 100, REF := "A", ALT := ["T"], calls := [("s1", "0/1")] }]
     (OutState.mk [("100")] [(("s1"), [("1")])]) (by decide)
     ("s1") [("1")] (by decide) ("1") (by decide)⟩

/-- Claim C9: the founder header is accepted exactly when its first four
tokens are CHROM, POS, REF, ALT in that order, and an invalid header makes
the whole run fail fatally with the header message, whatever the variant file
holds — before any variant record is read. -/
theorem claim_C9 :
    (∀ headerLine : List String,
      verifyParentalGenosFileStructure headerLine = true ↔
        headerLine.take 4 = [("CHROM"), ("POS"), ("REF"), ("ALT")]) ∧
    (∀ (lines : List (List String)) (vcfFile : Option VCFData) (chrom : String) (ow : Bool),
      verifyParentalGenosFileStructure ((lines.head?).getD []) = false →
      runMain (some lines) vcfFile chrom ow
        = RunResult.failure (Failure.exitMsg parentalHeaderErrMsg)) := by
  constructor
  · intro headerLine
    simp [verifyParentalGenosFileStructure]
  · intro lines vcfFile chrom ow h
    simp [runMain, openIOFile, h]

/-- Witness for C9: a header missing the ALT column is rejected and aborts the
run for any variant input. -/
theorem claim_C9_witness :
    verifyParentalGenosFileStructure
        (([[("CHROM"), ("POS"), ("REF"), ("P1"), ("P2")]] :
          List (List String)).head?.getD []) = false ∧
    runMain (some [[("CHROM"), ("POS"), ("REF"), ("P1"), ("P2")]])
        (some { samples := [("s1")], records := [] }) ("chr1") true
      = RunResult.failure (Failure.exitMsg parentalHeaderErrMsg) :=
  ⟨by decide,
   claim_C9.2 [[("CHROM"), ("POS"), ("REF"), ("P1"), ("P2")]]
     (some { samples := [("s1")], records := [] }) ("chr1") true (by decide)⟩

theorem processFounderRows_append (chrom : String) (header : List String) :
    ∀ (xs ys : List (List String)) (d d2 : PGDict),
      processFounderRows chrom header xs d = Except.ok d2 →
      processFounderRows chrom header (xs ++ ys) d
        = processFounderRows chrom header ys d2 := by
  intro xs
  induction xs with
  | nil =>
    intro ys d d2 h
    simp only [processFounderRows] at h
    cases h
    simp
  | cons row rest ih =>
    intro ys d d2 h
    simp only [processFounderRows] at h
    split at h
    · exact Except.noConfusion h
    rename_i d1 hrow
    rw [List.cons_append]
    simp only [processFounderRows]
    rw [hrow]
    exact ih ys d1 d2 h

theorem processFounderRow_match (chrom : String) (header : List String) (d : PGDict)
    (tail : List String) (rcd : List (String × String)) (pos : String)
    (hrcd : buildRowRecord header (chrom :: tail) = some rcd)
    (hpos : zipLookup header (chrom :: tail) ("POS") = some pos) :
    processFounderRow chrom header d (chrom :: tail)
      = Except.ok (dictInsert d pos rcd) := by
  simp [processFounderRow, hrcd, hpos]

theorem processFounderRow_ok_cases (chrom : String) (header : List String) (d : PGDict)
    (row : List String) (d1 : PGDict)
    (h : processFounderRow chrom header d row = Except.ok d1) :
    d1 = d ∨ ∃ tail rcd pos, row = chrom :: tail ∧
      buildRowRecord header row = some rcd ∧
      zipLookup header row ("POS") = some pos ∧
      d1 = dictInsert d pos rcd := by
  cases row with
  | nil => simp [processFounderRow] at h
  | cons c0 t =>
    by_cases hc : c0 = chrom
    · subst hc
      cases hb : buildRowRecord header (c0 :: t) with
      | none =>
        cases hz : zipLookup header (c0 :: t) ("POS") <;>
          simp [processFounderRow, hb, hz] at h
      | some rcd =>
        cases hz : zipLookup header (c0 :: t) ("POS") with
        | none => simp [processFounderRow, hb, hz] at h
        | some pos =>
          simp only [processFounderRow, hb, hz, if_pos rfl] at h
          cases h
          exact Or.inr ⟨t, rcd, pos, rfl, by rfl, by rfl, by rfl⟩
    · simp only [processFounderRow, if_neg hc] at h
      cases h
      exact Or.inl rfl

theorem processFounderRows_lookup_preserved (chrom : String) (header : List String)
    (p : String) :
    ∀ (rows : List (List String)) (d d2 : PGDict),
      (∀ row ∈ rows, row.head? = some chrom → zipLookup header row ("POS") ≠ some p) →
      processFounderRows chrom header rows d = Except.ok d2 →
      dictLookup d2 p = dictLookup d p := by
  intro rows
  induction rows with
  | nil =>
    intro d d2 _ h
    simp only [processFounderRows] at h
    cases h
    rfl
  | cons row rest ih =>
    intro d d2 hno h
    simp only [processFounderRows] at h
    split at h
    · exact Except.noConfusion h
    rename_i d1 hrow
    rw [ih d1 d2 (fun r hr => hno r (List.mem_cons_of_mem row hr)) h]
    rcases processFounderRow_ok_cases chrom header d row d1 hrow with
      rfl | ⟨t, rcd, pos, hrw, hb, hz, rfl⟩
    · rfl
    · have hne : pos ≠ p := by
        intro e
        exact hno row (List.mem_cons_self row rest) (by rw [hrw]; rfl) (e ▸ hz)
      exact dictLookup_dictInsert_ne d pos p rcd (Ne.symm hne)

theorem dictInsert_length_le {α : Type} (d : List (String × α)) (k : String) (v : α) :
    d.length ≤ (dictInsert d k v).length := by
  induction d with
  | nil => simp [dictInsert]
  | cons p rest ih =>
    by_cases h : p.1 = k
    · simp only [dictInsert, if_pos h, List.length_cons]
      exact Nat.succ_le_succ ih
    · simp only [dictInsert, if_neg h, List.length_cons]
      exact Nat.succ_le_succ ih

theorem processFounderRows_length_le (chrom : String) (header : List String) :
    ∀ (rows : List (List String)) (d d2 : PGDict),
      processFounderRows chrom header rows d = Except.ok d2 →
      d.length ≤ d2.length := by
  intro rows
  induction rows with
  | nil =>
    intro d d2 h
    simp only [processFounderRows] at h
    cases h
    exact Nat.le_refl _
  | cons row rest ih =>
    intro d d2 h
    simp only [processFounderRows] at h
    split at h
    · exact Except.noConfusion h
    rename_i d1 hrow
    refine Nat.le_trans ?_ (ih d1 d2 h)
    rcases processFounderRow_ok_cases chrom header d row d1 hrow with
      rfl | ⟨t, rcd, pos, _, _, _, rfl⟩
    · exact Nat.le_refl _
    · exact dictInsert_length_le d pos rcd

/-- Claim C10: two chromosome-matching founder rows with the same POS token do
not make the loader fail: the later row's record silently overwrites the
earlier one in the position-keyed lookup, so after loading completes the
lookup at that position returns exactly the last such row's record. -/
theorem claim_C10 (header : List String) (chrom : String)
    (rows1 rows2 rows3 : List (List String)) (tailA tailB : List String)
    (recA recB : List (String × String)) (p : String) (d1 d2 d3 : PGDict)
    (hrA : buildRowRecord header (chrom :: tailA) = some recA)
    (hpA : zipLookup header (chrom :: tailA) ("POS") = some p)
    (hrB : buildRowRecord header (chrom :: tailB) = some recB)
    (hpB : zipLookup header (chrom :: tailB) ("POS") = some p)
    (h1 : processFounderRows chrom header rows1 [] = Except.ok d1)
    (h2 : processFounderRows chrom header rows2 (dictInsert d1 p recA) = Except.ok d2)
    (h3 : processFounderRows chrom header rows3 (dictInsert d2 p recB) = Except.ok d3)
    (hno3 : ∀ row ∈ rows3, row.head? = some chrom →
      zipLookup header row ("POS") ≠ some p) :
    extractParentGenosForGivenChrom
        (rows1 ++ (chrom :: tailA) :: rows2 ++ (chrom :: tailB) :: rows3) chrom header
      = Except.ok d3 ∧
    dictLookup d3 p = some recB := by
  have hstepA := processFounderRow_match chrom header d1 tailA recA p hrA hpA
  have hstepB := processFounderRow_match chrom header d2 tailB recB p hrB hpB
  have hfold : processFounderRows chrom header
      (rows1 ++ (chrom :: tailA) :: (rows2 ++ (chrom :: tailB) :: rows3)) []
      = Except.ok d3 := by
    rw [processFounderRows_append chrom header rows1 _ [] d1 h1]
    simp only [processFounderRows]
    rw [hstepA]
    show processFounderRows chrom header (rows2 ++ (chrom :: tailB) :: rows3)
      (dictInsert d1 p recA) = Except.ok d3
    rw [processFounderRows_append chrom header rows2 _ (dictInsert d1 p recA) d2 h2]
    simp only [processFounderRows]
    rw [hstepB]
    exact h3
  constructor
  · have hlen : 0 < d3.length :=
      Nat.lt_of_lt_of_le (dictInsert_length_pos d2 p recB)
        (processFounderRows_length_le chrom header rows3 (dictInsert d2 p recB) d3 h3)
    simp [extractParentGenosForGivenChrom, hfold, hlen]
  · rw [processFounderRows_lookup_preserved chrom header p rows3
      (dictInsert d2 p recB) d3 hno3 h3]
    exact dictLookup_dictInsert_self d2 p recB

/-- Witness for C10: a founder file whose two data rows both carry POS 100
loads without error and the lookup at 100 returns the second row's record. -/
theorem claim_C10_witness :
    extractParentGenosForGivenChrom
        [[("c"), ("100"), ("A"), ("T"), ("0/0"), ("1/1")],
         [("c"), ("100"), ("G"), ("C"), ("1/1"), ("0/0")]] ("c")
        [("CHROM"), ("POS"), ("REF"), ("ALT"), ("P1"), ("P2")]
      = Except.ok (dictInsert
          (dictInsert [] ("100") [("REF", "A"), ("ALT", "T"), ("P1", "0/0"), ("P2", "1/1")])
          ("100") [("REF", "G"), ("ALT", "C"), ("P1", "1/1"), ("P2", "0/0")]) ∧
    dictLookup (dictInsert
        (dictInsert [] ("100") [("REF", "A"), ("ALT", "T"), ("P1", "0/0"), ("P2", "1/1")])
        ("100") [("REF", "G"), ("ALT", "C"), ("P1", "1/1"), ("P2", "0/0")]) ("100")
      = some [("REF", "G"), ("ALT", "C"), ("P1", "1/1"), ("P2", "0/0")] :=
  claim_C10 [("CHROM"), ("POS"), ("REF"), ("ALT"), ("P1"), ("P2")] ("c")
    [] [] [] [("100"), ("A"), ("T"), ("0/0"), ("1/1")] [("100"), ("G"), ("C"), ("1/1"), ("0/0")]
    [("REF", "A"), ("ALT", "T"), ("P1", "0/0"), ("P2", "1/1")]
    [("REF", "G"), ("ALT", "C"), ("P1", "1/1"), ("P2", "0/0")]
    ("100")
    [] (dictInsert [] ("100") [("REF", "A"), ("ALT", "T"), ("P1", "0/0"), ("P2", "1/1")])
    (dictInsert
      (dictInsert [] ("100") [("REF", "A"), ("ALT", "T"), ("P1", "0/0"), ("P2", "1/1")])
      ("100") [("REF", "G"), ("ALT", "C"), ("P1", "1/1"), ("P2", "0/0")])
    (by decide) (by decide) (by decide) (by decide)
    (by decide) (by decide) (by decide) (by decide)
